import Mathlib

/-!
Verification of the AudioPlatform segmentation-and-recognition pipeline.

Shallow embedding of the Python sources:
  - app.py                              (process_audio orchestrator)
  - temp_manager.py                     (TempManager.save_audio_file)
  - audio_processor.py                  (AudioProcessor.split_channels)
  - src_asr/asr_engine.py               (ASREngine.recognize,
                                         ASREngine.recognize_with_diarize_segments)
  - src_asr/audio_segment_extractor.py  (AudioSegmentExtractor.extract_segment)
  - src_asr/speaker_segment_processor.py (SpeakerSegmentProcessor.process_segments)
  - src_asr/asr_engine_segment.py       (recognize_segments_separately)

Times and sample values are rationals; sample counts are naturals; Python
exceptions are modelled with Except; external model inference (whisper
transcription, whisperx alignment, pyannote diarization, librosa loading)
is supplied through explicit parameters or oracle records, since those
results are data the code merely consumes.
-/

namespace AudioPlatform

/-- Python int() truncation toward zero of a rational. -/
def pyTrunc (q : ℚ) : ℤ :=
  if 0 ≤ q then ⌊q⌋ else -⌊-q⌋

/-- Python str.lower() (character-wise, as on the ASCII names used here). -/
def pyLower (s : String) : String :=
  String.mk (s.data.map Char.toLower)

/-- Python str.endswith on one suffix. -/
def pyEndsWith (s suffix : String) : Bool :=
  suffix.data.isSuffixOf s.data

/-- Python str.startswith. -/
def pyStartsWith (s pre : String) : Bool :=
  pre.data.isPrefixOf s.data

/-- Whitespace stripping at both ends of a character list. -/
def stripChars (l : List Char) : List Char :=
  ((l.dropWhile Char.isWhitespace).reverse.dropWhile Char.isWhitespace).reverse

/-- Python str.strip(). -/
def pyStrip (s : String) : String :=
  String.mk (stripChars s.data)

/-- Python str.split(sep) for a one-character separator. -/
def splitOnChar (c : Char) (l : List Char) : List (List Char) :=
  l.foldr
    (fun x acc =>
      match acc with
      | [] => [[x]]
      | cur :: rest => if x = c then [] :: cur :: rest else (x :: cur) :: rest)
    [[]]

/-- Python list/ndarray slice semantics xs[i:j] for possibly-negative
integer bounds: negative indices count from the end, then both bounds are
clamped into [0, len]; result is the half-open range. -/
def pySlice (xs : List ℚ) (i j : ℤ) : List ℚ :=
  let n : ℤ := xs.length
  let lo : ℕ := (if i < 0 then max (i + n) 0 else min i n).toNat
  let hi : ℕ := (if j < 0 then max (j + n) 0 else min j n).toNat
  (xs.take hi).drop lo

/-- Python os.path.basename: the part after the final slash. -/
def osPathBasename (p : String) : String :=
  String.mk (p.data.foldl (fun acc c => if c = '/' then [] else acc ++ [c]) [])

/-- Python os.path.join for two components. -/
def osPathJoin (a b : String) : String :=
  if pyStartsWith b "/" then b
  else if a = "" then b
  else if pyEndsWith a "/" then a ++ b
  else a ++ "/" ++ b

/-- An audio buffer as loaded by librosa.load: the sample list and the
sample rate. -/
structure AudioBuf where
  samples : List ℚ
  sr : ℕ
  deriving Repr, DecidableEq

/- ------------------------------------------------------------------
AudioSegmentExtractor.extract_segment (audio_segment_extractor.py 36-76).

  start_sample = int(start_time * sr); end_sample = int(end_time * sr)
  if start_sample >= len(y): start_sample = len(y) - 1
  if end_sample >= len(y): end_sample = len(y) - 1
  if end_sample > start_sample: segment_audio = y[start_sample:end_sample]
  else: segment_audio = np.zeros(1 * sr)
  sf.write(..., segment_audio, sr)

The function is total (never raises): numpy slicing accepts any bounds.
------------------------------------------------------------------ -/

/-- The sample offset actually used by extract_segment for a time bound:
only the upper side is clamped (offsets at or beyond the sample count are
pulled back to length - 1). -/
def extractorOffset (y : List ℚ) (sr : ℕ) (t : ℚ) : ℤ :=
  let k := pyTrunc (t * sr)
  if (y.length : ℤ) ≤ k then (y.length : ℤ) - 1 else k

/-- AudioSegmentExtractor.extract_segment: the written artifact (samples
and sample rate). -/
def extract_segment (src : AudioBuf) (startTime endTime : ℚ) : AudioBuf :=
  let s := extractorOffset src.samples src.sr startTime
  let e := extractorOffset src.samples src.sr endTime
  if s < e then ⟨pySlice src.samples s e, src.sr⟩
  else ⟨List.replicate src.sr 0, src.sr⟩

/-- The clamp the claim describes: force the offset into [0, length-1]. -/
def claimedClamp (len : ℕ) (k : ℤ) : ℤ :=
  min (max k 0) ((len : ℤ) - 1)

/- ------------------------------------------------------------------
TempManager.save_audio_file (temp_manager.py 47-69).
------------------------------------------------------------------ -/

/-- filename.lower().endswith(('.wav', '.mp3', '.ogg', '.flac')). -/
def hasAudioExt (filename : String) : Bool :=
  let l := pyLower filename
  pyEndsWith l ".wav" || pyEndsWith l ".mp3" || pyEndsWith l ".ogg" || pyEndsWith l ".flac"

/-- TempManager.save_audio_file: returns the path handed back to the
caller together with the single write it performs (path, bytes). -/
def save_audio_file (audioData : List ℕ) (sessionDir filename : String) :
    String × (String × List ℕ) :=
  let fname := if !hasAudioExt filename then filename ++ ".wav" else filename
  let path := osPathJoin sessionDir fname
  (path, (path, audioData))

/- ------------------------------------------------------------------
AudioProcessor.split_channels (audio_processor.py 31-77).

librosa.load(mono=False) returns a 1-D array for mono input and a
(channels, samples) 2-D array otherwise; the code raises when ndim == 1
or when shape[0] != 2, and otherwise writes one mono file per channel at
the source sample rate.
------------------------------------------------------------------ -/

/-- The value librosa.load(mono=False) produces: 1-D for mono sources,
2-D (list of channels) otherwise. -/
inductive LoadedAudio where
  | mono (samples : List ℚ)
  | multi (channels : List (List ℚ))
  deriving Repr, DecidableEq

/-- Channel count of a loaded audio value. -/
def numChannels : LoadedAudio → ℕ
  | .mono _ => 1
  | .multi cs => cs.length

/-- AudioProcessor.split_channels: error string on the raise paths,
otherwise the list of written mono artifacts. -/
def split_channels (y : LoadedAudio) (sr : ℕ) : Except String (List AudioBuf) :=
  match y with
  | .mono _ => .error "提供的音频不是双声道"
  | .multi cs =>
    if cs.length ≠ 2 then .error "预期双声道音频"
    else .ok (cs.map fun c => ⟨c, sr⟩)

/- ------------------------------------------------------------------
Diarization timelines (asr_engine.py, recognize_with_diarize_segments).
------------------------------------------------------------------ -/

/-- One span of a speaker timeline, as stored in diarize_segments.json.
The source field named end is called stop here (end is a Lean keyword). -/
structure DSeg where
  speaker : String
  start : ℚ
  stop : ℚ
  deriving Repr, DecidableEq

/-- ML diarization stage, per detected turn (asr_engine.py 197-207):
start_time = max(0, segment.start); end_time = max(start_time + 0.1,
segment.end). A turn is (speaker, start, end). -/
def bumpTurn (t : String × ℚ × ℚ) : DSeg :=
  let s := max 0 t.2.1
  ⟨t.1, s, max (s + 1 / 10) t.2.2⟩

/-- The synthesized default when zero turns are detected (asr_engine.py
220-223 and 283-287): two spans splitting the duration at its midpoint. -/
def defaultHalves (d : ℚ) : List DSeg :=
  [⟨"SPEAKER_00", 0, d / 2⟩, ⟨"SPEAKER_01", d / 2, d⟩]

/-- ML diarization stage output (asr_engine.py 192-225): the bumped turns,
or the two-halves default when no turn was detected. -/
def mlTimeline (turns : List (String × ℚ × ℚ)) (d : ℚ) : List DSeg :=
  let segs := turns.map bumpTurn
  if segs.isEmpty then defaultHalves d else segs

/-- f-string SPEAKER_ with len(segments) % 2 zero-padded to two digits
(asr_engine.py 274). -/
def speakerLabel (k : ℕ) : String :=
  if k % 2 = 0 then "SPEAKER_00" else "SPEAKER_01"

/-- Loop state of the energy-based fallback scan (asr_engine.py 255-279). -/
structure EnergyState where
  segs : List DSeg
  isSpeech : Bool
  startT : ℚ
  deriving Repr

/-- time = i * hop_length / sr (asr_engine.py 261). -/
def frameTime (sr hop : ℕ) (i : ℕ) : ℚ :=
  (i : ℚ) * hop / sr

/-- One iteration of the energy fallback loop (asr_engine.py 260-279):
entering speech on energy above threshold, closing a turn on energy at or
below threshold or at the final frame, keeping turns of at least 0.5 s. -/
def energyStep (sr hop n : ℕ) (thr : ℚ) (st : EnergyState) (p : ℕ × ℚ) : EnergyState :=
  if st.isSpeech = false ∧ thr < p.2 then
    { st with isSpeech := true, startT := frameTime sr hop p.1 }
  else if st.isSpeech = true ∧ (p.2 ≤ thr ∨ p.1 = n - 1) then
    if 1 / 2 ≤ frameTime sr hop p.1 - st.startT then
      { segs := st.segs ++ [⟨speakerLabel st.segs.length, st.startT, frameTime sr hop p.1⟩],
        isSpeech := false, startT := st.startT }
    else { st with isSpeech := false }
  else st

/-- The turn list the energy fallback detects from the RMS energy frames. -/
def energySegments (sr hop : ℕ) (thr : ℚ) (energy : List ℚ) : List DSeg :=
  (energy.enum.foldl (energyStep sr hop energy.length thr) ⟨[], false, 0⟩).segs

/-- Energy fallback stage output (asr_engine.py 238-293): the detected
turns, or the two-halves default when none qualify. -/
def energyTimeline (sr hop : ℕ) (thr : ℚ) (energy : List ℚ) (d : ℚ) : List DSeg :=
  let segs := energySegments sr hop thr energy
  if segs.isEmpty then defaultHalves d else segs

/-- A timeline is well formed in the sense of the spec when spans are
sorted ascending by start and each span lasts at least 0.1 s. -/
def timelineOK (ts : List DSeg) : Prop :=
  List.Pairwise (fun a b => a.start ≤ b.start) ts ∧ ∀ s ∈ ts, s.start + 1 / 10 ≤ s.stop

/-- Invariant of the energy-scan loop relative to a time frontier c: the
collected turns are sorted with spans of at least 0.1 s, their starts do
not exceed c, and while inside a speech region the pending start does not
exceed c and bounds every collected start. -/
def energyInv (c : ℚ) (st : EnergyState) : Prop :=
  List.Pairwise (fun a b => a.start ≤ b.start) st.segs ∧
  (∀ s ∈ st.segs, s.start ≤ c) ∧
  (st.isSpeech = true → st.startT ≤ c ∧ ∀ s ∈ st.segs, s.start ≤ st.startT) ∧
  (∀ s ∈ st.segs, s.start + 1 / 10 ≤ s.stop)

/- ------------------------------------------------------------------
Diarization Resolver cache (asr_engine.py 160-317): the stage chain runs
only when diarize_segments.json is absent from the session directory; a
present artifact is read back instead. json.dump/json.loads round-trips
the segment list and the defensive character cleanup on read (asr_engine.py
310-312) does not alter json.dump output, so the artifact is modelled as
the stored segment-list value itself.
------------------------------------------------------------------ -/

/-- Outcomes of the two fallible diarization stages plus the audio
duration, fixed per (session, source) pair. -/
structure DiarizeAttempt where
  mlTurns : Except Unit (List (String × ℚ × ℚ))
  energySegs : Except Unit (List DSeg)
  duration : ℚ

/-- One resolution: returns the timeline (or failure when both stages
raise), the session artifact afterwards, and whether the ML/energy
pipeline was invoked. -/
def resolveTimeline (att : DiarizeAttempt) (artifact : Option (List DSeg)) :
    Except Unit (List DSeg) × Option (List DSeg) × Bool :=
  match artifact with
  | some segs => (.ok segs, some segs, false)
  | none =>
    match att.mlTurns with
    | .ok turns =>
      let t := mlTimeline turns att.duration
      (.ok t, some t, true)
    | .error _ =>
      match att.energySegs with
      | .ok esegs =>
        let t := if esegs.isEmpty then defaultHalves att.duration else esegs
        (.ok t, some t, true)
      | .error _ => (.error (), none, true)

/- ------------------------------------------------------------------
Recognition records.
------------------------------------------------------------------ -/

/-- One element of the list ASREngine.recognize returns (asr_engine.py
113-119). -/
structure RecSeg where
  text : String
  startTime : ℚ
  endTime : ℚ
  deriving Repr, DecidableEq

/-- One word-level timestamp from whisperx alignment. -/
structure Word where
  word : String
  start : ℚ
  stop : ℚ
  deriving Repr, DecidableEq

/-- One segment of a whisperx transcription result. -/
structure TSeg where
  text : String
  start : ℚ
  stop : ℚ
  deriving Repr, DecidableEq

/-- One segment of a whisperx aligned result, with word timestamps. -/
structure ASeg where
  text : String
  start : ℚ
  stop : ℚ
  words : List Word
  deriving Repr, DecidableEq

/-- ASREngine.recognize (asr_engine.py 64-124): transcription then
alignment, with NO exception handler around the alignment phase; an
alignment failure propagates out of the call. The transcription result
and the alignment outcome are the model-inference inputs. -/
def recognizeASR (transcription : List TSeg)
    (alignOutcome : Except Unit (List ASeg)) : Except Unit (List RecSeg) :=
  match alignOutcome with
  | .error e => .error e
  | .ok segs => .ok (segs.map fun s => ⟨pyStrip s.text, s.start, s.stop⟩)

/-- What a per-call fallback to the transcription boundaries would return
for ASREngine.recognize, built from the transcription segments the same
way the result loop builds them. -/
def transcriptionSegments (transcription : List TSeg) : List RecSeg :=
  transcription.map fun s => ⟨pyStrip s.text, s.start, s.stop⟩

/- ------------------------------------------------------------------
Speaker-id normalization.
------------------------------------------------------------------ -/

/-- Python int() on a decimal string: optional surrounding whitespace,
optional sign, at least one digit; None models ValueError. -/
def pyParseDigits (cs : List Char) : Option ℕ :=
  if cs ≠ [] ∧ cs.all Char.isDigit then
    some (cs.foldl (fun a c => a * 10 + (c.toNat - 48)) 0)
  else none

/-- Python int() over a full string, with sign handling. -/
def pyParseInt (s : String) : Option ℤ :=
  match stripChars s.data with
  | [] => none
  | c :: rest =>
    if c = '-' then (pyParseDigits rest).map fun n => -(n : ℤ)
    else if c = '+' then (pyParseDigits rest).map fun n => (n : ℤ)
    else (pyParseDigits (c :: rest)).map fun n => (n : ℤ)

/-- The speaker-number-to-letter step: chr(65 + (num % 26)). -/
def speakerLetter (num : ℤ) : String :=
  "speaker" ++ String.mk [Char.ofNat (65 + (num.emod 26).toNat)]

/-- Speaker-id normalization with ValueError caught (asr_engine.py
342-353 and speaker_segment_processor.py 372-392): unparsable ids pass
through unchanged. -/
def convertSpeakerId (speaker : String) : String :=
  if speaker = "SPEAKER_00" then "speakerA"
  else if speaker = "SPEAKER_01" then "speakerB"
  else if pyStartsWith speaker "SPEAKER_" then
    match (splitOnChar '_' speaker.data).drop 1 with
    | [] => speaker
    | part :: _ =>
      match pyParseInt (String.mk part) with
      | none => speaker
      | some num => speakerLetter num
  else speaker

/-- Speaker-id normalization as written in asr_engine_segment.py 101-110:
the int() call is NOT guarded, so an unparsable SPEAKER_ id raises
(returned as none) instead of passing through. -/
def convertSpeakerIdStrict (speaker : String) : Option String :=
  if speaker = "SPEAKER_00" then some "speakerA"
  else if speaker = "SPEAKER_01" then some "speakerB"
  else if pyStartsWith speaker "SPEAKER_" then
    match (splitOnChar '_' speaker.data).drop 1 with
    | [] => none
    | part :: _ => (pyParseInt (String.mk part)).map speakerLetter
  else some speaker

/- ------------------------------------------------------------------
recognize_with_diarize_segments, per-span phase (asr_engine.py 328-445).
The parsed segment list is the input (the resolver phase above produced
it); extraction and recognition outcomes come from an oracle keyed by the
span and the extracted slice path, since they depend on the filesystem
and the models.
------------------------------------------------------------------ -/

/-- One element of the result list recognize_with_diarize_segments builds
(asr_engine.py 403-411). -/
structure DiarizeResult where
  speaker : String
  originalSpeaker : String
  text : String
  startTime : ℚ
  endTime : ℚ
  segmentPath : String
  confidence : ℚ
  deriving Repr, DecidableEq

/-- External effects of the per-span loop: extract_segment can raise, can
hand back a falsy/missing path (modelled as ok none), or a usable slice
path; self.recognize on a path can raise or return segments. A path maps
to one outcome since the session files are fixed during the call. -/
structure EngineOracle where
  recognize : String → Except Unit (List RecSeg)
  extract : DSeg → Except Unit (Option String)

/-- Loop body for one timeline span (asr_engine.py 336-419): none is a
skipped or failed span (invalid interval, span under 0.1 s, extraction
raise or missing file, recognition raise, empty recognition, or no
non-empty text); some is the appended result record. -/
def processSegment (o : EngineOracle) (seg : DSeg) : Option DiarizeResult :=
  if seg.stop ≤ seg.start then none
  else if seg.stop - seg.start < 1 / 10 then none
  else
    match o.extract seg with
    | .error _ => none
    | .ok none => none
    | .ok (some segFile) =>
      match o.recognize segFile with
      | .error _ => none
      | .ok recSegs =>
        if recSegs.isEmpty then none
        else
          let parts := (recSegs.filter fun r => pyStrip r.text != "").map fun r => r.text
          let combined := String.intercalate " " parts
          if pyStrip combined = "" then none
          else some
            { speaker := convertSpeakerId seg.speaker, originalSpeaker := seg.speaker,
              text := combined, startTime := seg.start, endTime := seg.stop,
              segmentPath := segFile, confidence := 1 }

/-- Stable insertion keeping earlier-inserted equal keys first, matching
Python's stable list.sort(key=start_time). -/
def insertByStart (x : DiarizeResult) : List DiarizeResult → List DiarizeResult
  | [] => [x]
  | y :: ys => if y.startTime ≤ x.startTime then y :: insertByStart x ys else x :: y :: ys

/-- Stable sort by start_time (asr_engine.py 422). -/
def sortByStart (l : List DiarizeResult) : List DiarizeResult :=
  l.foldl (fun acc x => insertByStart x acc) []

/-- The two shapes recognize_with_diarize_segments can return: its own
speaker-attributed records, or the plain ASREngine.recognize value when
it falls back to whole-file recognition. -/
inductive DiarizeOut where
  | segments (rs : List DiarizeResult)
  | fallback (rs : List RecSeg)
  deriving Repr, DecidableEq

/-- recognize_with_diarize_segments from the parsed timeline onward
(asr_engine.py 323-452). An empty parsed list falls back to
self.recognize(audio_path) at line 326; zero usable span results fall
back the same way at line 443. If that recognize call itself raises, the
outer handler (line 447) retries self.recognize(audio_path), which yields
the same outcome again, so a raising fallback propagates as the raise. -/
def recognize_with_diarize_segments (o : EngineOracle) (audioPath : String)
    (segments : List DSeg) : Except Unit DiarizeOut :=
  if segments.isEmpty then
    (o.recognize audioPath).map DiarizeOut.fallback
  else
    let results := sortByStart (segments.filterMap (processSegment o))
    if results.isEmpty then (o.recognize audioPath).map DiarizeOut.fallback
    else .ok (.segments results)

/-- Combined mode (app.py 470-475): a single whole-file
ASREngine.recognize call on the same audio file. -/
def combinedMode (o : EngineOracle) (audioPath : String) : Except Unit (List RecSeg) :=
  o.recognize audioPath

/- ------------------------------------------------------------------
SpeakerSegmentProcessor.process_segments, per-segment phase
(speaker_segment_processor.py 86-175), and the per-segment phase of
recognize_segments_separately (asr_engine_segment.py 55-136).
------------------------------------------------------------------ -/

/-- One element of the segment_results list. The Python success record
also carries a confidence and the slice path, and the failure record
carries the exception text instead of words; isError distinguishes the
two shapes. -/
structure SegProcResult where
  text : String
  startTime : ℚ
  endTime : ℚ
  speaker : String
  originalSpeaker : String
  words : List Word
  isError : Bool
  deriving Repr, DecidableEq

/-- segment_text accumulation: for each segment, append strip(text) plus
a space (speaker_segment_processor.py 126-127 and 143-144). -/
def joinedText (texts : List String) : String :=
  texts.foldl (fun acc t => acc ++ pyStrip t ++ " ") ""

/-- Word-timestamp re-basing (speaker_segment_processor.py 131-136): add
the slice's source start time to each word bound. -/
def rebaseWord (offset : ℚ) (w : Word) : Word :=
  { w with start := w.start + offset, stop := w.stop + offset }

/-- Word collection in SpeakerSegmentProcessor.process_segments: every
word of every aligned segment, re-based by the span start. -/
def alignedWordsRebased (asegs : List ASeg) (offset : ℚ) : List Word :=
  asegs.flatMap fun s => s.words.map (rebaseWord offset)

/-- Word collection in recognize_segments_separately (asr_engine_segment.py
92-99): segment_words.extend(seg["words"]) with NO offset applied. -/
def separatelyWords (asegs : List ASeg) : List Word :=
  asegs.flatMap fun s => s.words

/-- SpeakerSegmentProcessor.process_segments, body for one extracted
slice (speaker_segment_processor.py 94-175): transcription failure hits
the outer handler and appends an error record; alignment failure is
caught by the INNER handler (line 137) and degrades to the transcription
text with no word timestamps. -/
def processOneSegment (transcribeOut : Except Unit (List TSeg))
    (alignOut : Except Unit (List ASeg)) (speaker : String)
    (startTime endTime : ℚ) : SegProcResult :=
  match transcribeOut with
  | .error _ =>
    { text := "", startTime := startTime, endTime := endTime,
      speaker := convertSpeakerId speaker, originalSpeaker := speaker,
      words := [], isError := true }
  | .ok tsegs =>
    match alignOut with
    | .ok asegs =>
      { text := pyStrip (joinedText (asegs.map fun s => s.text)),
        startTime := startTime, endTime := endTime,
        speaker := convertSpeakerId speaker, originalSpeaker := speaker,
        words := alignedWordsRebased asegs startTime, isError := false }
    | .error _ =>
      { text := pyStrip (joinedText (tsegs.map fun s => s.text)),
        startTime := startTime, endTime := endTime,
        speaker := convertSpeakerId speaker, originalSpeaker := speaker,
        words := [], isError := false }

/-- recognize_segments_separately, body for one extracted slice
(asr_engine_segment.py 63-136): transcription, alignment AND the
unguarded int() speaker conversion all sit in one try block, so any of
them raising appends the error record (with the raw speaker id); on
success the words are the slice-relative aligned words, unshifted. -/
def recognizeSegmentSeparately (transcribeOut : Except Unit (List TSeg))
    (alignOut : Except Unit (List ASeg)) (speaker : String)
    (startTime endTime : ℚ) : SegProcResult :=
  let failed : SegProcResult :=
    { text := "", startTime := startTime, endTime := endTime,
      speaker := speaker, originalSpeaker := speaker,
      words := [], isError := true }
  match transcribeOut with
  | .error _ => failed
  | .ok _ =>
    match alignOut with
    | .error _ => failed
    | .ok asegs =>
      match convertSpeakerIdStrict speaker with
      | none => failed
      | some readable =>
        { text := pyStrip (joinedText (asegs.map fun s => s.text)),
          startTime := startTime, endTime := endTime,
          speaker := readable, originalSpeaker := speaker,
          words := separatelyWords asegs, isError := false }

/- ------------------------------------------------------------------
process_audio (app.py 375-506): the original audio is copied into the
session directory BEFORE the mode check, then the mode is validated, then
one of the three strategies runs. The strategies' own work is supplied by
an oracle (their returned values); the event trace records the filesystem
copy and which strategy ran.
------------------------------------------------------------------ -/

instance {ε α : Type} [DecidableEq ε] [DecidableEq α] : DecidableEq (Except ε α) :=
  fun a b =>
    match a, b with
    | .ok x, .ok y =>
      match decEq x y with
      | isTrue h => isTrue (by rw [h])
      | isFalse h => isFalse (by intro hc; injection hc; contradiction)
    | .error x, .error y =>
      match decEq x y with
      | isTrue h => isTrue (by rw [h])
      | isFalse h => isFalse (by intro hc; injection hc; contradiction)
    | .ok _, .error _ => isFalse fun hc => Except.noConfusion hc
    | .error _, .ok _ => isFalse fun hc => Except.noConfusion hc

/-- Observable actions of process_audio relevant to ordering: the
pre-check copy of the source into the session directory, and the run of a
strategy branch (which is where all further processing and result-file
writes happen). -/
inductive AppEvent where
  | copyOriginal (dest : String)
  | splitRun
  | diarizeRun
  | combinedRun
  deriving Repr, DecidableEq

/-- Values the three valid strategy branches would produce. -/
structure ModeOracle where
  splitResult : List RecSeg
  diarizeResult : Except Unit DiarizeOut
  combinedResult : Except Unit (List RecSeg)

/-- The return value of process_audio: the unsupported-mode dictionary
(error message plus empty transcript, app.py 405-408) or a strategy
payload. -/
inductive ProcValue where
  | unsupported (msg : String)
  | splitDone (rs : List RecSeg)
  | diarizeDone (r : Except Unit DiarizeOut)
  | combinedDone (r : Except Unit (List RecSeg))
  deriving Repr, DecidableEq

/-- The mode whitelist (app.py 401). -/
def validModes : List String := ["split", "combined", "diarize_segments"]

/-- The unsupported-mode message (app.py 403). -/
def unsupportedMsg (mode : String) : String :=
  "不支持的处理模式: " ++ mode ++ "，支持的模式有: split, combined, diarize_segments"

/-- process_audio with a caller-provided session directory (app.py
375-506): copy the source beside the session directory when it is not
already there (393-398), then validate the mode (400-408), then run the
selected strategy. -/
def process_audio (o : ModeOracle) (filePath mode sessionDir : String) :
    ProcValue × List AppEvent :=
  let dest := osPathJoin sessionDir (osPathBasename filePath)
  let copyEvents := if filePath ≠ dest then [AppEvent.copyOriginal dest] else []
  if mode ∉ validModes then
    (.unsupported (unsupportedMsg mode), copyEvents)
  else if mode = "split" then
    (.splitDone o.splitResult, copyEvents ++ [.splitRun])
  else if mode = "diarize_segments" then
    (.diarizeDone o.diarizeResult, copyEvents ++ [.diarizeRun])
  else
    (.combinedDone o.combinedResult, copyEvents ++ [.combinedRun])

/- ==================================================================
Theorems.
================================================================== -/

/-- Frame times are nonnegative. -/
theorem frameTime_nonneg (sr hop i : ℕ) : 0 ≤ frameTime sr hop i := by
  unfold frameTime
  positivity

/-- Frame times are monotone in the frame index. -/
theorem frameTime_mono (sr hop : ℕ) {i j : ℕ} (h : i ≤ j) :
    frameTime sr hop i ≤ frameTime sr hop j := by
  unfold frameTime
  rw [div_eq_mul_inv, div_eq_mul_inv]
  apply mul_le_mul_of_nonneg_right
  · exact mul_le_mul_of_nonneg_right (by exact_mod_cast h) (by positivity)
  · positivity

/-- One energy-scan step preserves the loop invariant, advancing the
frontier to the step's frame time. -/
theorem energyInv_step {sr hop n : ℕ} {thr c : ℚ} {st : EnergyState}
    (p : ℕ × ℚ) (hinv : energyInv c st) (hc : c ≤ frameTime sr hop p.1) :
    energyInv (frameTime sr hop p.1) (energyStep sr hop n thr st p) := by
  obtain ⟨hpw, hle, hsp, hmin⟩ := hinv
  unfold energyStep energyInv
  split_ifs with h1 h2 h3
  · exact ⟨hpw, fun s hs => le_trans (hle s hs) hc,
      fun _ => ⟨le_refl _, fun s hs => le_trans (hle s hs) hc⟩, hmin⟩
  · obtain ⟨hstle, hstub⟩ := hsp h2.1
    refine ⟨?_, ?_, ?_, ?_⟩
    · rw [List.pairwise_append]
      refine ⟨hpw, List.pairwise_singleton _ _, ?_⟩
      intro a ha b hb
      rw [List.mem_singleton] at hb
      subst hb
      exact hstub a ha
    · intro s hs
      rcases List.mem_append.mp hs with hs | hs
      · exact le_trans (hle s hs) hc
      · rw [List.mem_singleton] at hs
        subst hs
        exact le_trans hstle hc
    · intro hfalse
      exact absurd hfalse (by simp)
    · intro s hs
      rcases List.mem_append.mp hs with hs | hs
      · exact hmin s hs
      · rw [List.mem_singleton] at hs
        subst hs
        dsimp
        linarith
  · exact ⟨hpw, fun s hs => le_trans (hle s hs) hc,
      fun hfalse => absurd hfalse (by simp), hmin⟩
  · refine ⟨hpw, fun s hs => le_trans (hle s hs) hc, fun hsp2 => ?_, hmin⟩
    exact ⟨le_trans (hsp hsp2).1 hc, (hsp hsp2).2⟩

/-- Folding the energy scan over frames with nondecreasing indices keeps
the invariant. -/
theorem energyFold_inv (sr hop n : ℕ) (thr : ℚ) :
    ∀ (l : List (ℕ × ℚ)) (st : EnergyState) (c : ℚ),
      List.Pairwise (fun a b : ℕ × ℚ => a.1 ≤ b.1) l →
      (∀ p ∈ l, c ≤ frameTime sr hop p.1) →
      energyInv c st →
      ∃ cf, energyInv cf (l.foldl (energyStep sr hop n thr) st) := by
  intro l
  induction l with
  | nil =>
    intro st c _ _ hinv
    exact ⟨c, hinv⟩
  | cons p l ih =>
    intro st c hpw hlb hinv
    rw [List.foldl_cons]
    apply ih
    · exact hpw.of_cons
    · intro q hq
      exact frameTime_mono sr hop ((List.pairwise_cons.mp hpw).1 q hq)
    · exact energyInv_step p hinv (hlb p (List.mem_cons_self p l))

/-- Indices of enumFrom are bounded below by the starting index. -/
theorem fst_ge_of_mem_enumFrom :
    ∀ (l : List ℚ) (k : ℕ) (p : ℕ × ℚ), p ∈ l.enumFrom k → k ≤ p.1 := by
  intro l
  induction l with
  | nil =>
    intro k p hp
    simp [List.enumFrom] at hp
  | cons x xs ih =>
    intro k p hp
    rw [List.enumFrom] at hp
    rcases List.mem_cons.mp hp with rfl | hp
    · exact le_refl k
    · exact le_trans (Nat.le_succ k) (ih (k + 1) p hp)

/-- The indices produced by enumFrom are nondecreasing. -/
theorem pairwise_fst_enumFrom :
    ∀ (l : List ℚ) (k : ℕ),
      List.Pairwise (fun a b : ℕ × ℚ => a.1 ≤ b.1) (l.enumFrom k) := by
  intro l
  induction l with
  | nil =>
    intro k
    simp [List.enumFrom]
  | cons x xs ih =>
    intro k
    rw [List.enumFrom]
    refine List.pairwise_cons.mpr ⟨?_, ih (k + 1)⟩
    intro q hq
    exact le_trans (Nat.le_succ k) (fst_ge_of_mem_enumFrom xs (k + 1) q hq)

/-- The energy scan emits turns sorted by start and lasting at least
0.1 s (each kept turn lasts at least 0.5 s). -/
theorem energySegments_props (sr hop : ℕ) (thr : ℚ) (energy : List ℚ) :
    List.Pairwise (fun a b : DSeg => a.start ≤ b.start)
        (energySegments sr hop thr energy) ∧
      ∀ s ∈ energySegments sr hop thr energy, s.start + 1 / 10 ≤ s.stop := by
  have hinit : energyInv 0 (⟨[], false, 0⟩ : EnergyState) := by
    refine ⟨List.Pairwise.nil, ?_, ?_, ?_⟩
    · intro s hs
      simp at hs
    · intro hfalse
      exact absurd hfalse (by simp)
    · intro s hs
      simp at hs
  have henum : List.Pairwise (fun a b : ℕ × ℚ => a.1 ≤ b.1) energy.enum := by
    rw [List.enum]
    exact pairwise_fst_enumFrom energy 0
  obtain ⟨cf, hinv⟩ := energyFold_inv sr hop energy.length thr energy.enum
    ⟨[], false, 0⟩ 0 henum (fun p _ => frameTime_nonneg sr hop p.1) hinit
  exact ⟨hinv.1, hinv.2.2.2⟩

/-- The two-halves default is sorted and has spans of at least 0.1 s when
the duration is at least 0.2 s (each span lasts duration/2). -/
theorem timelineOK_defaultHalves {d : ℚ} (hd : 1 / 5 ≤ d) :
    timelineOK (defaultHalves d) := by
  constructor
  · unfold defaultHalves
    refine List.pairwise_cons.mpr ⟨?_, List.pairwise_singleton _ _⟩
    intro b hb
    rw [List.mem_singleton] at hb
    subst hb
    show (0 : ℚ) ≤ d / 2
    linarith
  · intro s hs
    unfold defaultHalves at hs
    rcases List.mem_cons.mp hs with rfl | hs
    · show (0 : ℚ) + 1 / 10 ≤ d / 2
      linarith
    · rw [List.mem_singleton] at hs
      subst hs
      show d / 2 + 1 / 10 ≤ d
      linarith

/-- Bumped ML turns are sorted (given chronological input turns) and the
end bump guarantees spans of at least 0.1 s. -/
theorem timelineOK_bumped {turns : List (String × ℚ × ℚ)}
    (hsorted : List.Pairwise (fun a b => a.2.1 ≤ b.2.1) turns) :
    timelineOK (turns.map bumpTurn) := by
  constructor
  · refine hsorted.map bumpTurn ?_
    intro a b h
    show max 0 a.2.1 ≤ max 0 b.2.1
    exact max_le_max (le_refl 0) h
  · intro s hs
    rcases List.mem_map.mp hs with ⟨t, _, rfl⟩
    show max 0 t.2.1 + 1 / 10 ≤ max (max 0 t.2.1 + 1 / 10) t.2.2
    exact le_max_left _ _

/-- C2 counterexample: on a 0.1-second source with zero detected turns,
the synthesized two-halves default produces spans of length 0.05 s, so
the resolver emits a timeline violating end at least start + 0.1. -/
theorem default_halves_short_duration_violates_min_span :
    ¬ timelineOK (mlTimeline [] (1 / 10)) := by
  intro h
  have hmem : (⟨"SPEAKER_00", 0, 1 / 10 / 2⟩ : DSeg) ∈ mlTimeline [] (1 / 10) := by
    simp [mlTimeline, defaultHalves]
  have hx := h.2 _ hmem
  norm_num at hx

/-- C2: every resolver timeline (ML stage on chronologically ordered
turns, energy fallback, or the synthesized default) is sorted ascending
by start with every span lasting at least 0.1 s, provided the source
duration is at least 0.2 s (the bound the two-halves default needs). -/
theorem diarize_timelines_sorted_min_span
    (turns : List (String × ℚ × ℚ)) (d : ℚ) (sr hop : ℕ) (thr : ℚ)
    (energy : List ℚ)
    (hsorted : List.Pairwise (fun a b => a.2.1 ≤ b.2.1) turns)
    (hd : 1 / 5 ≤ d) :
    timelineOK (mlTimeline turns d) ∧
      timelineOK (energyTimeline sr hop thr energy d) := by
  constructor
  · cases turns with
    | nil => simpa [mlTimeline] using timelineOK_defaultHalves hd
    | cons a l =>
      have hne : ((a :: l).map bumpTurn).isEmpty = false := by simp
      simpa [mlTimeline, hne] using timelineOK_bumped hsorted
  · have hps := energySegments_props sr hop thr energy
    unfold energyTimeline
    by_cases he : energySegments sr hop thr energy = []
    · simpa [he] using timelineOK_defaultHalves hd
    · have hne : (energySegments sr hop thr energy).isEmpty = false := by
        simpa [List.isEmpty_iff] using he
      simp only [hne, Bool.false_eq_true, if_false]
      exact hps

/-- C2 witness: a 1-second source with no ML turns and no energy frames
satisfies both hypotheses, and both stage timelines are well formed. -/
theorem diarize_timelines_sorted_min_span_witness :
    timelineOK (mlTimeline [] 1) ∧ timelineOK (energyTimeline 1 1 0 [] 1) :=
  diarize_timelines_sorted_min_span [] 1 1 1 0 [] List.Pairwise.nil (by norm_num)

/-- C1: whenever the diarize_segments strategy yields zero usable span
results (every parsed span is skipped or fails extraction, recognition,
or text assembly, or the parsed span list is empty), the returned value
is exactly the value combined mode obtains from whole-file
ASREngine.recognize on the same audio file. -/
theorem diarize_zero_usable_equals_combined (o : EngineOracle)
    (audioPath : String) (segments : List DSeg)
    (h : segments = [] ∨ ∀ s ∈ segments, processSegment o s = none) :
    recognize_with_diarize_segments o audioPath segments =
      (combinedMode o audioPath).map DiarizeOut.fallback := by
  rcases h with rfl | h
  · unfold recognize_with_diarize_segments combinedMode
    simp
  · have hfm : segments.filterMap (processSegment o) = [] :=
      List.filterMap_eq_nil_iff.mpr h
    unfold recognize_with_diarize_segments combinedMode
    by_cases hs : segments.isEmpty
    · simp [hs]
    · simp [hs, hfm, sortByStart]

/-- C1 witness: one parsed span whose extraction raises; diarize mode
falls back and returns exactly the combined-mode value. -/
theorem diarize_zero_usable_equals_combined_witness :
    recognize_with_diarize_segments
        ⟨fun _ => .ok [⟨"hi", 0, 1⟩], fun _ => .error ()⟩ "audio.wav"
        [⟨"SPEAKER_00", 0, 1⟩] =
      (combinedMode ⟨fun _ => .ok [⟨"hi", 0, 1⟩], fun _ => .error ()⟩
          "audio.wav").map DiarizeOut.fallback :=
  diarize_zero_usable_equals_combined _ _ _
    (Or.inr (by
      intro s hs
      rw [List.mem_singleton] at hs
      subst hs
      simp only [processSegment]
      norm_num))

/-- C3: once a resolution has produced a timeline (so the session holds a
diarize_segments artifact), any further resolution on that session, with
arbitrary new stage outcomes, returns the same timeline from the cached
artifact, leaves the artifact unchanged, and does not invoke the ML or
energy pipeline (the invocation flag is false). -/
theorem resolver_idempotent (att att2 : DiarizeAttempt)
    (artifact : Option (List DSeg)) (t1 : List DSeg)
    (st1 : Option (List DSeg)) (b1 : Bool)
    (h : resolveTimeline att artifact = (.ok t1, st1, b1)) :
    resolveTimeline att2 st1 = (.ok t1, st1, false) := by
  cases artifact with
  | some segs =>
    simp only [resolveTimeline, Prod.mk.injEq] at h
    obtain ⟨he, rfl, rfl⟩ := h
    injection he with he
    subst he
    rfl
  | none =>
    cases hml : att.mlTurns with
    | ok turns =>
      simp only [resolveTimeline, hml, Prod.mk.injEq] at h
      obtain ⟨he, rfl, rfl⟩ := h
      injection he with he
      subst he
      rfl
    | error e =>
      cases hen : att.energySegs with
      | ok esegs =>
        simp only [resolveTimeline, hml, hen, Prod.mk.injEq] at h
        obtain ⟨he, rfl, rfl⟩ := h
        injection he with he
        subst he
        rfl
      | error e2 =>
        simp only [resolveTimeline, hml, hen, Prod.mk.injEq] at h
        exact absurd h.1 (by intro hc; exact Except.noConfusion hc)

/-- C3 witness: a first resolution on an empty session generates and
persists the ML timeline; a second resolution whose stages would both
raise still returns that timeline from the artifact without invoking any
stage. -/
theorem resolver_idempotent_witness :
    resolveTimeline ⟨.error (), .error (), 0⟩
        (some (mlTimeline [("SPEAKER_00", 0, 1)] 2)) =
      (.ok (mlTimeline [("SPEAKER_00", 0, 1)] 2),
        some (mlTimeline [("SPEAKER_00", 0, 1)] 2), false) :=
  resolver_idempotent ⟨.ok [("SPEAKER_00", 0, 1)], .ok [], 2⟩ ⟨.error (), .error (), 0⟩
    none (mlTimeline [("SPEAKER_00", 0, 1)] 2)
    (some (mlTimeline [("SPEAKER_00", 0, 1)] 2)) true rfl

/-- C4 counterexample: ASREngine.recognize has no handler around the
alignment phase, so on an alignment failure the whole-file recognition
call raises (returns the error) instead of returning the transcription
phase's segment boundaries and text, refuting the claim for combined
mode. -/
theorem recognize_alignment_failure_propagates :
    recognizeASR [⟨"hi", 0, 1⟩] (.error ()) = .error () ∧
      (Except.error () : Except Unit (List RecSeg)) ≠
        .ok (transcriptionSegments [⟨"hi", 0, 1⟩]) :=
  ⟨rfl, fun h => Except.noConfusion h⟩

/-- C4: in the segment-level recognition path
(SpeakerSegmentProcessor.process_segments), an alignment failure does not
fail the call: the produced record is a non-error record carrying the
transcription phase's concatenated text, the span's boundaries, and no
word timestamps. -/
theorem segment_alignment_failure_falls_back (tsegs : List TSeg)
    (speaker : String) (startTime endTime : ℚ) :
    (processOneSegment (.ok tsegs) (.error ()) speaker startTime endTime).isError
        = false ∧
      (processOneSegment (.ok tsegs) (.error ()) speaker startTime endTime).text
        = pyStrip (joinedText (tsegs.map fun s => s.text)) ∧
      (processOneSegment (.ok tsegs) (.error ()) speaker startTime endTime).startTime
        = startTime ∧
      (processOneSegment (.ok tsegs) (.error ()) speaker startTime endTime).endTime
        = endTime ∧
      (processOneSegment (.ok tsegs) (.error ()) speaker startTime endTime).words
        = [] :=
  ⟨rfl, rfl, rfl, rfl, rfl⟩

/-- C5: recognize_segments_separately (asr_engine_segment.py 92-99)
returns the aligned words of a slice extracted at source offset 5 s
unshifted, at slice-relative 0.2 s, while re-basing into source time (the
documented contract, implemented by alignedWordsRebased in the
SpeakerSegmentProcessor paths) would give 5.2 s. -/
theorem separately_words_not_rebased :
    (recognizeSegmentSeparately (.ok []) (.ok [⟨"hi", 0, 1, [⟨"hi", 1/5, 1/2⟩]⟩])
        "SPEAKER_00" 5 6).words = [⟨"hi", 1/5, 1/2⟩] ∧
      alignedWordsRebased [⟨"hi", 0, 1, [⟨"hi", 1/5, 1/2⟩]⟩] 5
        = [⟨"hi", 26/5, 11/2⟩] ∧
      (1/5 : ℚ) ≠ 26/5 := by
  refine ⟨rfl, ?_, by norm_num⟩
  simp [alignedWordsRebased, rebaseWord]
  norm_num

/-- C6 counterexample: at start -2 s, end -1 s on a 1-second 4 Hz source,
the claimed clamp into the valid index range makes both offsets 0, so the
claim demands the 1-second silence artifact; the code clamps only the
upper side, numpy slicing turns the negative offsets into the empty range,
and the written artifact has zero samples rather than one second of
silence. -/
theorem extract_negative_times_refute_clamp_claim :
    claimedClamp 4 (pyTrunc ((-1 : ℚ) * (4 : ℕ)))
        ≤ claimedClamp 4 (pyTrunc ((-2 : ℚ) * (4 : ℕ))) ∧
      extract_segment ⟨[1, 1, 1, 1], 4⟩ (-2) (-1) = ⟨[], 4⟩ ∧
      (⟨[], 4⟩ : AudioBuf) ≠ ⟨List.replicate 4 0, 4⟩ := by
  have h1 : pyTrunc ((-1 : ℚ) * (4 : ℕ)) = -4 := by
    unfold pyTrunc
    rw [if_neg (by norm_num)]
    norm_num
  have h2 : pyTrunc ((-2 : ℚ) * (4 : ℕ)) = -8 := by
    unfold pyTrunc
    rw [if_neg (by norm_num)]
    norm_num
  refine ⟨?_, ?_, by decide⟩
  · rw [h1, h2]
    decide
  · simp only [extract_segment, extractorOffset, pyTrunc, pySlice]
    norm_num

/-- C6: for nonnegative start and end times the extractor behaves as
claimed: its sample offsets coincide with the clamp into the valid index
range, it never raises (the model is total), and whenever the clamped end
offset is at or below the clamped start offset it writes exactly one
second of silence at the source's sample rate. -/
theorem extract_clamp_silence_for_nonneg (y : List ℚ) (sr : ℕ)
    (startTime endTime : ℚ) (hs : 0 ≤ startTime) (he : 0 ≤ endTime) :
    extractorOffset y sr startTime = claimedClamp y.length (pyTrunc (startTime * sr)) ∧
      extractorOffset y sr endTime = claimedClamp y.length (pyTrunc (endTime * sr)) ∧
      (extractorOffset y sr endTime ≤ extractorOffset y sr startTime →
        extract_segment ⟨y, sr⟩ startTime endTime = ⟨List.replicate sr 0, sr⟩) := by
  have key : ∀ t : ℚ, 0 ≤ t →
      extractorOffset y sr t = claimedClamp y.length (pyTrunc (t * sr)) := by
    intro t ht
    have hk : 0 ≤ pyTrunc (t * sr) := by
      have hts : (0 : ℚ) ≤ t * sr := mul_nonneg ht (by positivity)
      unfold pyTrunc
      rw [if_pos hts]
      exact Rat.le_floor.mpr (by exact_mod_cast hts)
    unfold extractorOffset claimedClamp
    rw [max_eq_left hk]
    by_cases hbig : (y.length : ℤ) ≤ pyTrunc (t * sr)
    · rw [if_pos hbig, min_eq_right (by omega)]
    · rw [if_neg hbig, min_eq_left (by omega)]
  refine ⟨key startTime hs, key endTime he, ?_⟩
  intro hle
  unfold extract_segment
  rw [if_neg (not_lt.mpr hle)]

/-- C6 witness: source of two samples at 2 Hz, start 3 s (clamped to the
last index), end 0 s: the clamped end is at or below the clamped start
and the extractor returns one second of silence. -/
theorem extract_clamp_silence_for_nonneg_witness :
    (0 : ℚ) ≤ 3 ∧ (0 : ℚ) ≤ 0 ∧
      extract_segment ⟨[1, 1], 2⟩ 3 0 = ⟨List.replicate 2 0, 2⟩ := by
  have h0 : extractorOffset [1, 1] 2 0 = 0 := by
    simp only [extractorOffset, pyTrunc]
    norm_num
  have h3 : extractorOffset [1, 1] 2 3 = 1 := by
    simp only [extractorOffset, pyTrunc]
    norm_num
  exact ⟨by norm_num, le_refl 0,
    (extract_clamp_silence_for_nonneg [1, 1] 2 3 0 (by norm_num) (le_refl 0)).2.2
      (by rw [h0, h3]; decide)⟩

/-- C7: when diarization detects zero speaker turns (an empty ML turn
list, or an energy scan that kept no turn of at least 0.5 s), the
resolver synthesizes exactly two equal-length spans covering the full
duration: SPEAKER_00 on the first half and SPEAKER_01 on the second. -/
theorem zero_turns_two_equal_halves (d : ℚ) (sr hop : ℕ) (thr : ℚ)
    (energy : List ℚ) (h : energySegments sr hop thr energy = []) :
    mlTimeline [] d = [⟨"SPEAKER_00", 0, d / 2⟩, ⟨"SPEAKER_01", d / 2, d⟩] ∧
      energyTimeline sr hop thr energy d
        = [⟨"SPEAKER_00", 0, d / 2⟩, ⟨"SPEAKER_01", d / 2, d⟩] ∧
      d / 2 - 0 = d - d / 2 := by
  refine ⟨rfl, ?_, by ring⟩
  unfold energyTimeline
  rw [h]
  rfl

/-- C7 witness: an empty energy frame list detects no turns, and both
stages return the two halves of a 3-second source. -/
theorem zero_turns_two_equal_halves_witness :
    energySegments 1 1 0 [] = [] ∧
      mlTimeline [] 3 = [⟨"SPEAKER_00", 0, 3 / 2⟩, ⟨"SPEAKER_01", 3 / 2, 3⟩] ∧
      energyTimeline 1 1 0 [] 3
        = [⟨"SPEAKER_00", 0, 3 / 2⟩, ⟨"SPEAKER_01", 3 / 2, 3⟩] ∧
      (3 : ℚ) / 2 - 0 = 3 - 3 / 2 :=
  ⟨rfl, zero_turns_two_equal_halves 3 1 1 0 [] rfl⟩

/-- C8: split_channels raises a channel-count error exactly when the
loaded source does not have two channels (mono input and more-than-two
channel input both raise), and on a two-channel source it returns exactly
two mono artifacts, each at the source's sample rate. -/
theorem split_channels_two_channel_contract (y : LoadedAudio) (sr : ℕ) :
    ((∃ msg, split_channels y sr = .error msg) ↔ numChannels y ≠ 2) ∧
      ∀ arts, split_channels y sr = .ok arts →
        arts.length = 2 ∧ ∀ a ∈ arts, a.sr = sr := by
  cases y with
  | mono s =>
    constructor
    · constructor
      · intro _
        simp [numChannels]
      · intro _
        exact ⟨"提供的音频不是双声道", rfl⟩
    · intro arts h
      simp [split_channels] at h
  | multi cs =>
    by_cases h2 : cs.length = 2
    · constructor
      · constructor
        · rintro ⟨msg, hmsg⟩
          simp [split_channels, h2] at hmsg
        · intro hne
          simp [numChannels, h2] at hne
      · intro arts h
        simp only [split_channels, h2] at h
        rw [if_neg (by simp)] at h
        injection h with h
        subst h
        constructor
        · simp [h2]
        · intro a ha
          rcases List.mem_map.mp ha with ⟨c, _, rfl⟩
          rfl
    · constructor
      · constructor
        · intro _
          simpa [numChannels] using h2
        · intro _
          exact ⟨"预期双声道音频", by simp [split_channels, h2]⟩
      · intro arts h
        simp [split_channels, h2] at h

/-- C8 witness: a concrete stereo source yields its two mono channels at
the source rate, and a concrete mono source raises. -/
theorem split_channels_two_channel_contract_witness :
    split_channels (LoadedAudio.multi [[1], [2]]) 7 = .ok [⟨[1], 7⟩, ⟨[2], 7⟩] ∧
      ([⟨[1], 7⟩, ⟨[2], 7⟩] : List AudioBuf).length = 2 ∧
      (∀ a ∈ ([⟨[1], 7⟩, ⟨[2], 7⟩] : List AudioBuf), a.sr = 7) ∧
      ∃ msg, split_channels (LoadedAudio.mono [1]) 3 = .error msg := by
  have h1 := (split_channels_two_channel_contract (LoadedAudio.multi [[1], [2]]) 7).2
    [⟨[1], 7⟩, ⟨[2], 7⟩] rfl
  have h2 := (split_channels_two_channel_contract (LoadedAudio.mono [1]) 3).1.mpr
    (by decide)
  exact ⟨rfl, h1.1, h1.2, h2⟩

/-- C9 counterexample: with an unsupported mode and a source outside the
session directory, process_audio returns the unsupported-mode error but
has already copied the source into the session directory, so the session
state is NOT unchanged by the failed request. -/
theorem unsupported_mode_copies_before_check :
    (process_audio ⟨[], .ok (.segments []), .ok []⟩ "/tmp/a.wav" "unknown_mode" "/sess")
        = (.unsupported (unsupportedMsg "unknown_mode"),
           [AppEvent.copyOriginal "/sess/a.wav"]) ∧
      [AppEvent.copyOriginal "/sess/a.wav"] ≠ ([] : List AppEvent) := by
  refine ⟨rfl, by decide⟩

/-- C9: an unsupported mode makes process_audio return the
unsupported-mode error with an empty transcript, before any strategy runs
(no split, diarize or combined processing happens); but the copy of the
original audio into the session directory precedes the check, and is the
only session-state change. -/
theorem unsupported_mode_stops_before_processing (o : ModeOracle)
    (filePath mode sessionDir : String) (h : mode ∉ validModes) :
    process_audio o filePath mode sessionDir =
      (.unsupported (unsupportedMsg mode),
        if filePath ≠ osPathJoin sessionDir (osPathBasename filePath) then
          [AppEvent.copyOriginal (osPathJoin sessionDir (osPathBasename filePath))]
        else []) ∧
      ∀ ev ∈ (process_audio o filePath mode sessionDir).2,
        ev ≠ AppEvent.splitRun ∧ ev ≠ AppEvent.diarizeRun ∧
          ev ≠ AppEvent.combinedRun := by
  have hmain : process_audio o filePath mode sessionDir =
      (.unsupported (unsupportedMsg mode),
        if filePath ≠ osPathJoin sessionDir (osPathBasename filePath) then
          [AppEvent.copyOriginal (osPathJoin sessionDir (osPathBasename filePath))]
        else []) := by
    unfold process_audio
    rw [if_pos h]
  refine ⟨hmain, ?_⟩
  rw [hmain]
  intro ev hev
  by_cases hcopy : filePath ≠ osPathJoin sessionDir (osPathBasename filePath)
  · rw [if_pos hcopy] at hev
    rcases List.mem_singleton.mp hev with rfl
    exact ⟨fun hx => AppEvent.noConfusion hx, fun hx => AppEvent.noConfusion hx,
      fun hx => AppEvent.noConfusion hx⟩
  · rw [if_neg hcopy] at hev
    exact absurd hev (List.not_mem_nil ev)

/-- C9 witness: the amended statement at the concrete failing request
(source outside the session directory, mode unknown_mode). -/
theorem unsupported_mode_stops_before_processing_witness :
    process_audio ⟨[], .ok (.segments []), .ok []⟩ "/tmp/a.wav" "unknown_mode" "/sess" =
      (.unsupported (unsupportedMsg "unknown_mode"),
        if "/tmp/a.wav" ≠ osPathJoin "/sess" (osPathBasename "/tmp/a.wav") then
          [AppEvent.copyOriginal (osPathJoin "/sess" (osPathBasename "/tmp/a.wav"))]
        else []) ∧
      ∀ ev ∈ (process_audio ⟨[], .ok (.segments []), .ok []⟩ "/tmp/a.wav"
          "unknown_mode" "/sess").2,
        ev ≠ AppEvent.splitRun ∧ ev ≠ AppEvent.diarizeRun ∧
          ev ≠ AppEvent.combinedRun :=
  unsupported_mode_stops_before_processing ⟨[], .ok (.segments []), .ok []⟩
    "/tmp/a.wav" "unknown_mode" "/sess" (by decide)

/-- C10: save_audio_file stores exactly the given bytes at the returned
path inside the session directory; when the lowercase filename does not
end in .wav, .mp3, .ogg or .flac the stored name is the given name with
.wav appended, and otherwise the given name is used unchanged. -/
theorem save_audio_file_contract (audioData : List ℕ) (sessionDir filename : String) :
    (save_audio_file audioData sessionDir filename).2.2 = audioData ∧
      (save_audio_file audioData sessionDir filename).2.1
        = (save_audio_file audioData sessionDir filename).1 ∧
      (¬ (pyEndsWith (pyLower filename) ".wav" = true ∨
          pyEndsWith (pyLower filename) ".mp3" = true ∨
          pyEndsWith (pyLower filename) ".ogg" = true ∨
          pyEndsWith (pyLower filename) ".flac" = true) →
        (save_audio_file audioData sessionDir filename).1
          = osPathJoin sessionDir (filename ++ ".wav")) ∧
      ((pyEndsWith (pyLower filename) ".wav" = true ∨
          pyEndsWith (pyLower filename) ".mp3" = true ∨
          pyEndsWith (pyLower filename) ".ogg" = true ∨
          pyEndsWith (pyLower filename) ".flac" = true) →
        (save_audio_file audioData sessionDir filename).1
          = osPathJoin sessionDir filename) := by
  refine ⟨rfl, rfl, ?_, ?_⟩
  · intro hno
    have hext : hasAudioExt filename = false := by
      unfold hasAudioExt
      simp only [Bool.or_eq_false_iff]
      push_neg at hno
      exact ⟨⟨⟨by simpa using hno.1, by simpa using hno.2.1⟩,
        by simpa using hno.2.2.1⟩, by simpa using hno.2.2.2⟩
    unfold save_audio_file
    rw [hext]
    rfl
  · intro hyes
    have hext : hasAudioExt filename = true := by
      unfold hasAudioExt
      rcases hyes with h | h | h | h <;> simp [h]
    unfold save_audio_file
    rw [hext]
    rfl

/-- C10 witness: a name without a recognized extension gains .wav, a name
with one is kept, and the bytes are written verbatim. -/
theorem save_audio_file_contract_witness :
    (save_audio_file [1, 2] "/sess" "voice").2.2 = [1, 2] ∧
      (save_audio_file [1, 2] "/sess" "voice").1 = osPathJoin "/sess" "voice.wav" ∧
      (save_audio_file [1, 2] "/sess" "A.WAV").1 = osPathJoin "/sess" "A.WAV" :=
  ⟨(save_audio_file_contract [1, 2] "/sess" "voice").1,
    (save_audio_file_contract [1, 2] "/sess" "voice").2.2.1 (by decide),
    (save_audio_file_contract [1, 2] "/sess" "A.WAV").2.2.2 (by decide)⟩

end AudioPlatform
